import Mathlib

/-!
Verification of the CollabConnect frontend query pipeline:
the query-mode classifier embedded in `ResumeUploader.handleSubmit`,
the request construction in `App.handleTextExtracted`, and the lazy
match-details fetch and merge in `App.handleReadMore`.

JavaScript strings are modelled as lists of Unicode code points
(`List Nat`); the ASCII fragments of `toLowerCase`, `toUpperCase`,
`trim`, `split(/\s+/)` and `includes` are modelled explicitly below.
-/

namespace CollabConnect

/-- A JavaScript string, as its list of code points. -/
abbrev JSStr := List Nat

/-- Code-point list of a Lean string literal. -/
def str (s : String) : JSStr := s.toList.map Char.toNat

/-- Whitespace code points (the ASCII fragment of the JS `\s` class
and of the characters removed by `trim`). -/
def isWsCp (n : Nat) : Bool :=
  decide (n = 32 ∨ n = 9 ∨ n = 10 ∨ n = 13 ∨ n = 12 ∨ n = 11)

/-- JS `toLowerCase` on one code point (ASCII range). -/
def toLowerCp (n : Nat) : Nat := if 65 ≤ n ∧ n ≤ 90 then n + 32 else n

/-- JS `toUpperCase` on one code point (ASCII range). -/
def toUpperCp (n : Nat) : Nat := if 97 ≤ n ∧ n ≤ 122 then n - 32 else n

/-- JS `text.toLowerCase()`. -/
def lowerStr (s : JSStr) : JSStr := s.map toLowerCp

/-- JS `text.trim()`. -/
def trimStr (s : JSStr) : JSStr :=
  ((s.dropWhile (isWsCp ·)).reverse.dropWhile (isWsCp ·)).reverse

/-- Does `s` start with `pat`? -/
def startsWith : JSStr → JSStr → Bool
  | _, [] => true
  | [], _ :: _ => false
  | c :: cs, p :: ps => p == c && startsWith cs ps

/-- JS `s.includes(pat)`. -/
def containsSub : JSStr → JSStr → Bool
  | [], pat => pat.isEmpty
  | c :: rest, pat => startsWith (c :: rest) pat || containsSub rest pat

/-- JS `combinedText.trim().split(/\s+/)`: split at maximal whitespace
runs; a leading or trailing run contributes an empty fragment, and the
empty string splits to one empty fragment. -/
def splitWs : JSStr → List JSStr
  | [] => [[]]
  | [c] => if isWsCp c then [[], []] else [[c]]
  | c :: d :: rest =>
    if isWsCp c then
      (if isWsCp d then splitWs (d :: rest) else [] :: splitWs (d :: rest))
    else
      match splitWs (d :: rest) with
      | [] => [[c]]
      | w :: ws => (c :: w) :: ws

/-- The `searchKeywords` list of `handleSubmit` (trigger phrases). -/
def searchKeywords : List JSStr :=
  [str "find", str "search", str "show", str "who knows", str "who has",
   str "people skilled in", str "looking for", str "expert in"]

/-- The `technicalKeywords` list of `handleSubmit`. -/
def technicalKeywords : List JSStr :=
  [str "python", str "java", str "javascript", str "typescript", str "go",
   str "rust", str "c++", str "c#", str "ruby", str "php", str "swift",
   str "kotlin",
   str "react", str "vue", str "angular", str "svelte", str "next.js",
   str "nextjs", str "html", str "css", str "tailwind",
   str "node", str "express", str "django", str "flask", str "spring",
   str "rails",
   str "sql", str "nosql", str "postgresql", str "postgres", str "mysql",
   str "mongodb", str "redis", str "elasticsearch",
   str "aws", str "gcp", str "azure", str "docker", str "kubernetes",
   str "k8s", str "jenkins", str "ci/cd", str "terraform",
   str "machine learning", str "data science", str "ai",
   str "deep learning", str "tensorflow", str "pytorch", str "pandas",
   str "spark",
   str "api", str "rest", str "graphql", str "microservices",
   str "backend", str "frontend", str "fullstack", str "devops"]

/-- `searchKeywords.some(keyword => lowerText.includes(keyword))`. -/
def isKeywordSearch (lowerText : JSStr) : Bool :=
  searchKeywords.any (fun keyword => containsSub lowerText keyword)

/-- `technicalKeywords.some(k => lowerText.includes(k) || k.includes(lowerText))`. -/
def isTechnicalQuery (lowerText : JSStr) : Bool :=
  technicalKeywords.any
    (fun keyword => containsSub lowerText keyword || containsSub keyword lowerText)

/-- A code point acceptable to the name regex `/^[a-zA-Z\s'-]+$/`:
a letter, whitespace, apostrophe (39) or hyphen (45). -/
def nameCharCp (n : Nat) : Bool :=
  decide ((65 ≤ n ∧ n ≤ 90) ∨ (97 ≤ n ∧ n ≤ 122)) || isWsCp n ||
    decide (n = 39) || decide (n = 45)

/-- `isNameLike`: the regex `/^[a-zA-Z\s'-]+$/` test on the text. -/
def isNameLike (text : JSStr) : Bool := !text.isEmpty && text.all nameCharCp

/-- `words.some(word => word.length > 0 && word[0] === word[0].toUpperCase())`. -/
def hasCapitalizedWord (words : List JSStr) : Bool :=
  words.any (fun word =>
    match word with
    | [] => false
    | c :: _ => c == toUpperCp c)

/-- The name heuristics of `handleSubmit`: short text, one to three
words, name-like characters, and some word whose first code point is
fixed by `toUpperCase`. -/
def nameHeuristics (text : JSStr) : Bool :=
  let words := splitWs (trimStr text)
  decide (text.length < 50) &&
    (decide (1 ≤ words.length) && decide (words.length ≤ 3)) &&
    isNameLike text && hasCapitalizedWord words

/-- The three mode literals of the uploader: `'resume' | 'search' | 'name_search'`. -/
inductive Mode where
  | resume
  | search
  | name_search
deriving DecidableEq, Repr

/-- The mode computation of `handleSubmit` for a typed query with no
attached file (lines 110-169 of the uploader): trigger phrases, then
technical vocabulary, then name heuristics, else `'search'`. -/
def classify (text : JSStr) : Mode :=
  let lowerText := lowerStr text
  if isKeywordSearch lowerText then Mode.search
  else if isTechnicalQuery lowerText then Mode.search
  else if nameHeuristics text then Mode.name_search
  else Mode.search

/-- Full mode resolution of `handleSubmit`: `mode` starts as `'resume'`
and is reassigned by the classifier only when no file is selected. -/
def resolveMode (hasFile : Bool) (combinedText : JSStr) : Mode :=
  if hasFile then Mode.resume else classify combinedText

/-- The text submitted to `onTextExtracted`: the trimmed input, with an
attached-file block appended when a file is selected. -/
def combinedOf (input : JSStr) (file : Option (JSStr × JSStr)) : JSStr :=
  let t := trimStr input
  match file with
  | none => t
  | some (fname, ftext) =>
    (if t.isEmpty then t else t ++ [10, 10]) ++
      (str "[Attached File Content (" ++ fname ++ str ")]:" ++ [10]) ++ ftext

/-- Outcome of `handleSubmit`: either the early-return error path, or a
call of `onTextExtracted` with the combined text and resolved mode. -/
inductive SubmitOutcome where
  | rejected (errorMsg : String)
  | accepted (text : JSStr) (mode : Mode)
deriving DecidableEq, Repr

/-- `handleSubmit` for input text and an optional attached file, given
as the pair of its name and extracted text. -/
def handleSubmit (inputText : JSStr) (file : Option (JSStr × JSStr)) :
    SubmitOutcome :=
  if (trimStr inputText).isEmpty && file.isNone then
    SubmitOutcome.rejected "Please enter text or upload a file."
  else
    SubmitOutcome.accepted (combinedOf inputText file)
      (resolveMode file.isSome (combinedOf inputText file))

/-- A project of an employee profile (`EmployeeCard.tsx`). -/
structure Proj where
  name : String
  description : String
  tech : List String
deriving DecidableEq, Repr

/-- The `ResumeMatch` record (`EmployeeCard.tsx`). -/
structure ResumeMatch where
  sharedSkills : List String
  matchingProjects : List String
  matchingDomains : List String
  techOverlap : List String
  matchingSeniority : Bool
  reasonSummary : String
deriving DecidableEq, Repr

/-- The `Employee` record (`EmployeeCard.tsx`); `resumeMatch` is the
optional field, `matchScore` a JSON number modelled as a rational. -/
structure Employee where
  id : String
  name : String
  title : String
  department : String
  location : String
  email : String
  manager : String
  experienceYears : Nat
  professionalSummary : String
  skills : List String
  primarySkills : List String
  secondarySkills : List String
  tools : List String
  projects : List Proj
  matchScore : Rat
  summary : String
  avatarUrl : String
  resumeMatch : Option ResumeMatch
  collaborationSuggestions : List String
deriving DecidableEq, Repr

/-- Wire value of a mode in the recommend request body. -/
def modeWire : Mode → String
  | Mode.resume => "resume"
  | Mode.search => "search"
  | Mode.name_search => "name_search"

/-- The recommend request body built by `App.handleTextExtracted`. -/
structure RecommendPayload where
  mode : String
  searchQuery : Option JSStr
  resumeText : Option JSStr
deriving DecidableEq, Repr

/-- `App.handleTextExtracted` payload construction: `searchQuery` for
the `'search'` and `'name_search'` modes, `resumeText` otherwise. -/
def buildPayload (text : JSStr) (mode : Mode) : RecommendPayload :=
  if mode = Mode.search ∨ mode = Mode.name_search then
    { mode := modeWire mode, searchQuery := some text, resumeText := none }
  else
    { mode := modeWire mode, searchQuery := none, resumeText := some text }

/-- The match-details request body of `App.handleReadMore`. -/
structure MatchDetailsRequest where
  targetText : JSStr
  employeeId : String
deriving DecidableEq, Repr

/-- The lazy-fetch guard of `App.handleReadMore`:
`currentQuery && (!employee.resumeMatch || !employee.collaborationSuggestions?.length)`. -/
def shouldFetchDetails (currentQuery : JSStr) (emp : Employee) : Bool :=
  !currentQuery.isEmpty &&
    (emp.resumeMatch.isNone || emp.collaborationSuggestions.isEmpty)

/-- The match-details request issued by `App.handleReadMore`, if any. -/
def handleReadMoreRequest (currentQuery : JSStr) (emp : Employee) :
    Option MatchDetailsRequest :=
  if shouldFetchDetails currentQuery emp then
    some { targetText := currentQuery, employeeId := emp.id }
  else none

/-- The recommendations-list update of `App.handleReadMore`: map over
the list, replacing `resumeMatch` and `collaborationSuggestions` of the
entry whose id matches. -/
def mergeDetails (recs : List Employee) (targetId : String)
    (rm : ResumeMatch) (cs : List String) : List Employee :=
  recs.map fun emp =>
    if emp.id = targetId then
      { emp with resumeMatch := some rm, collaborationSuggestions := cs }
    else emp

/-- Word shape named by the spec claim: the word starts with an
uppercase letter. -/
def startsWithUpper : JSStr → Bool
  | [] => false
  | c :: _ => decide (65 ≤ c ∧ c ≤ 90)

/-- Word shape actually accepted by the code: the first code point is a
fixed point of `toUpperCase`, i.e. an uppercase letter, an apostrophe,
or a hyphen (given that the text passed the name regex). -/
def startsWithCapLike : JSStr → Bool
  | [] => false
  | c :: _ => decide ((65 ≤ c ∧ c ≤ 90) ∨ c = 39 ∨ c = 45)

/-- Demo match-details payload used by concrete witnesses. -/
def rmDemo : ResumeMatch :=
  { sharedSkills := ["Go"], matchingProjects := [], matchingDomains := [],
    techOverlap := ["Go"], matchingSeniority := true,
    reasonSummary := "Shared Go work" }

/-- Demo employee used by concrete witnesses. -/
def empA : Employee :=
  { id := "a1", name := "Ana Diaz", title := "Engineer",
    department := "Platform", location := "Lisbon",
    email := "ana@example.com", manager := "Sam Lee",
    experienceYears := 6, professionalSummary := "Backend services.",
    skills := ["Go", "SQL"], primarySkills := ["Go"],
    secondarySkills := ["SQL"], tools := ["Git"], projects := [],
    matchScore := 9 / 10, summary := "Strong overlap", avatarUrl := "u1",
    resumeMatch := none, collaborationSuggestions := [] }

/-- Second demo employee used by concrete witnesses. -/
def empB : Employee :=
  { id := "b2", name := "Ben Ito", title := "Designer",
    department := "Design", location := "Osaka",
    email := "ben@example.com", manager := "Sam Lee",
    experienceYears := 4, professionalSummary := "Product design.",
    skills := ["Figma"], primarySkills := ["Figma"], secondarySkills := [],
    tools := ["Figma"], projects := [], matchScore := 3 / 10,
    summary := "Some overlap", avatarUrl := "u2",
    resumeMatch := none, collaborationSuggestions := [] }

/-! Helper lemmas about the code-point operations. -/

lemma toLowerCp_toLowerCp (n : Nat) : toLowerCp (toLowerCp n) = toLowerCp n := by
  by_cases h : 65 ≤ n ∧ n ≤ 90
  · simp only [toLowerCp, if_pos h]
    rw [if_neg (by omega)]
  · simp only [toLowerCp, if_neg h]

lemma lowerStr_lowerStr (s : JSStr) : lowerStr (lowerStr s) = lowerStr s := by
  simp only [lowerStr, List.map_map]
  exact List.map_congr_left fun a _ => toLowerCp_toLowerCp a

lemma isWsCp_toLowerCp (n : Nat) : isWsCp (toLowerCp n) = isWsCp n := by
  by_cases h : 65 ≤ n ∧ n ≤ 90
  · have h1 : toLowerCp n = n + 32 := by simp [toLowerCp, h]
    rw [h1]
    have h2 : isWsCp (n + 32) = false := by
      simp only [isWsCp, decide_eq_false_iff_not]; omega
    have h3 : isWsCp n = false := by
      simp only [isWsCp, decide_eq_false_iff_not]; omega
    rw [h2, h3]
  · simp [toLowerCp, h]

lemma nameCharCp_toLowerCp (n : Nat) : nameCharCp (toLowerCp n) = nameCharCp n := by
  by_cases h : 65 ≤ n ∧ n ≤ 90
  · have h1 : toLowerCp n = n + 32 := by simp [toLowerCp, h]
    rw [h1]
    have h2 : nameCharCp (n + 32) = true := by
      simp only [nameCharCp, isWsCp, Bool.or_eq_true, decide_eq_true_eq]
      omega
    have h3 : nameCharCp n = true := by
      simp only [nameCharCp, isWsCp, Bool.or_eq_true, decide_eq_true_eq]
      omega
    rw [h2, h3]
  · simp [toLowerCp, h]

lemma toUpperCp_fix_of_lower (n : Nat)
    (h : toUpperCp (toLowerCp n) = toLowerCp n) : toUpperCp n = n := by
  by_cases hc : 65 ≤ n ∧ n ≤ 90
  · exfalso
    have h1 : toLowerCp n = n + 32 := by simp [toLowerCp, hc]
    rw [h1] at h
    simp only [toUpperCp] at h
    rw [if_pos (by omega)] at h
    omega
  · have h1 : toLowerCp n = n := by simp [toLowerCp, hc]
    rwa [h1] at h

lemma splitWs_lowerStr (s : JSStr) :
    splitWs (lowerStr s) = (splitWs s).map lowerStr := by
  induction s with
  | nil => simp [splitWs, lowerStr]
  | cons c rest ih =>
    cases rest with
    | nil =>
      simp only [lowerStr, List.map_cons, List.map_nil, splitWs,
        isWsCp_toLowerCp]
      by_cases hc : isWsCp c = true <;> simp [hc, lowerStr]
    | cons d rest' =>
      have hld : lowerStr (d :: rest') = toLowerCp d :: List.map toLowerCp rest' := by
        simp [lowerStr]
      simp only [lowerStr, List.map_cons] at ih ⊢
      simp only [splitWs, isWsCp_toLowerCp]
      rw [ih]
      by_cases hc : isWsCp c = true
      · by_cases hd : isWsCp d = true
        · simp [hc, hd]
        · simp [hc, hd, lowerStr]
      · simp only [hc, Bool.false_eq_true, if_false, if_neg]
        cases hsp : splitWs (d :: rest') with
        | nil => simp [hsp, lowerStr]
        | cons w ws => simp [hsp, lowerStr]

lemma trimStr_lowerStr (s : JSStr) :
    trimStr (lowerStr s) = lowerStr (trimStr s) := by
  have hpf : ((fun c => isWsCp c) ∘ toLowerCp) = fun c => isWsCp c := by
    funext c
    simp [Function.comp, isWsCp_toLowerCp]
  simp only [trimStr, lowerStr, List.dropWhile_map, ← List.map_reverse, hpf]

lemma splitWs_trim_lower (t : JSStr) :
    splitWs (trimStr (lowerStr t)) = (splitWs (trimStr t)).map lowerStr := by
  rw [trimStr_lowerStr, splitWs_lowerStr]

lemma isNameLike_lowerStr (t : JSStr) : isNameLike (lowerStr t) = isNameLike t := by
  have h1 : (lowerStr t).isEmpty = t.isEmpty := by
    cases t <;> simp [lowerStr]
  have h2 : (lowerStr t).all nameCharCp = t.all nameCharCp := by
    simp only [lowerStr, List.all_map]
    congr 1
    funext c
    simp [Function.comp, nameCharCp_toLowerCp]
  rw [isNameLike, isNameLike, h1, h2]

lemma hasCapitalizedWord_lower_imp (ws : List JSStr)
    (h : hasCapitalizedWord (ws.map lowerStr) = true) :
    hasCapitalizedWord ws = true := by
  simp only [hasCapitalizedWord, List.any_map, List.any_eq_true] at h ⊢
  obtain ⟨w, hw, hcond⟩ := h
  refine ⟨w, hw, ?_⟩
  cases w with
  | nil => simp [Function.comp, lowerStr] at hcond
  | cons c rest =>
    simp only [Function.comp, lowerStr, List.map_cons] at hcond
    simp only [beq_iff_eq] at hcond ⊢
    exact (toUpperCp_fix_of_lower c hcond.symm).symm

lemma nameHeuristics_lower_imp (t : JSStr)
    (h : nameHeuristics (lowerStr t) = true) : nameHeuristics t = true := by
  have hlen : (lowerStr t).length = t.length := by simp [lowerStr]
  have hw := splitWs_trim_lower t
  simp only [nameHeuristics, Bool.and_eq_true, decide_eq_true_eq, hlen, hw,
    List.length_map, isNameLike_lowerStr] at h ⊢
  exact ⟨h.1, hasCapitalizedWord_lower_imp _ h.2⟩

lemma splitWs_subset (s : JSStr) :
    ∀ w ∈ splitWs s, ∀ c ∈ w, c ∈ s ∧ isWsCp c = false := by
  induction s with
  | nil =>
    intro w hw c hc
    simp only [splitWs, List.mem_singleton] at hw
    subst hw
    simp at hc
  | cons a rest ih =>
    cases rest with
    | nil =>
      intro w hw c hc
      by_cases ha : isWsCp a = true
      · simp only [splitWs, ha, if_true, List.mem_cons, List.mem_singleton,
          List.not_mem_nil, or_false] at hw
        rcases hw with h | h <;> (subst h; simp at hc)
      · rw [Bool.not_eq_true] at ha
        simp only [splitWs, ha, Bool.false_eq_true, if_false,
          List.mem_singleton] at hw
        subst hw
        simp only [List.mem_singleton] at hc
        exact ⟨by simp [hc], by rw [hc]; exact ha⟩
    | cons d rest' =>
      intro w hw c hc
      by_cases ha : isWsCp a = true
      · by_cases hd : isWsCp d = true
        · simp only [splitWs, ha, hd, if_true] at hw
          have h := ih w hw c hc
          exact ⟨List.mem_cons_of_mem a h.1, h.2⟩
        · rw [Bool.not_eq_true] at hd
          simp only [splitWs, ha, hd, Bool.false_eq_true, if_false, if_true,
            List.mem_cons] at hw
          rcases hw with h | h
          · subst h; simp at hc
          · have h2 := ih w h c hc
            exact ⟨List.mem_cons_of_mem a h2.1, h2.2⟩
      · rw [Bool.not_eq_true] at ha
        cases hsp : splitWs (d :: rest') with
        | nil =>
          simp only [splitWs, ha, Bool.false_eq_true, if_false, hsp,
            List.mem_singleton] at hw
          subst hw
          simp only [List.mem_singleton] at hc
          exact ⟨by simp [hc], by rw [hc]; exact ha⟩
        | cons w0 ws0 =>
          simp only [splitWs, ha, Bool.false_eq_true, if_false, hsp,
            List.mem_cons] at hw
          rcases hw with h | h
          · subst h
            rcases List.mem_cons.mp hc with h0 | h0
            · exact ⟨by simp [h0], by rw [h0]; exact ha⟩
            · have h2 := ih w0 (by rw [hsp]; exact List.mem_cons_self _ _) c h0
              exact ⟨List.mem_cons_of_mem a h2.1, h2.2⟩
          · have h2 := ih w (by rw [hsp]; exact List.mem_cons_of_mem _ h) c hc
            exact ⟨List.mem_cons_of_mem a h2.1, h2.2⟩

lemma mem_of_mem_trimStr {c : Nat} {s : JSStr} (h : c ∈ trimStr s) : c ∈ s := by
  simp only [trimStr, List.mem_reverse] at h
  have h2 : c ∈ (s.dropWhile (isWsCp ·)).reverse :=
    (List.dropWhile_sublist _).subset h
  rw [List.mem_reverse] at h2
  exact (List.dropWhile_sublist _).subset h2

lemma trimStr_eq_nil_of_all_ws (input : JSStr)
    (h : ∀ c ∈ input, isWsCp c = true) : trimStr input = [] := by
  have h1 : input.dropWhile (isWsCp ·) = [] :=
    List.dropWhile_eq_nil_iff.mpr h
  simp [trimStr, h1]

lemma shouldFetchDetails_iff (q : JSStr) (emp : Employee) :
    shouldFetchDetails q emp = true ↔
      q ≠ [] ∧ (emp.resumeMatch = none ∨ emp.collaborationSuggestions = []) := by
  simp [shouldFetchDetails, Bool.and_eq_true, Bool.or_eq_true,
    Option.isNone_iff_eq_none, List.isEmpty_iff]

/-! Claim theorems. -/

/-- C1 counterexample: the text "hello world 123" matches no trigger
phrase, no technical-vocabulary entry, and fails the name heuristics,
yet the classifier does not return `resume` (it returns `search`): with
no file attached the fallback branch assigns `mode = 'search'`. -/
theorem c1_resume_fallback_counterexample :
    isKeywordSearch (lowerStr (str "hello world 123")) = false ∧
    isTechnicalQuery (lowerStr (str "hello world 123")) = false ∧
    nameHeuristics (str "hello world 123") = false ∧
    classify (str "hello world 123") ≠ Mode.resume := by decide

/-- C1 (amended): for every typed query text that matches no trigger
phrase, no technical-vocabulary entry, and fails the name heuristics,
the classifier returns `search` (the keyword-search mode), not
`resume`. -/
theorem c1_fallback_is_search (t : JSStr)
    (h1 : isKeywordSearch (lowerStr t) = false)
    (h2 : isTechnicalQuery (lowerStr t) = false)
    (h3 : nameHeuristics t = false) :
    classify t = Mode.search := by
  simp [classify, h1, h2, h3]

/-- C1 witness: the amended fallback theorem applied at the concrete
text "hello world 123". -/
theorem c1_fallback_witness :
    isKeywordSearch (lowerStr (str "hello world 123")) = false ∧
    isTechnicalQuery (lowerStr (str "hello world 123")) = false ∧
    nameHeuristics (str "hello world 123") = false ∧
    classify (str "hello world 123") = Mode.search :=
  ⟨by decide, by decide, by decide,
    c1_fallback_is_search (str "hello world 123") (by decide) (by decide)
      (by decide)⟩

/-- C2 counterexample: the resume-like example text of the spec is
classified `search` (it contains the technical-vocabulary entries
"java", "kubernetes" and "backend"), not `resume`. -/
theorem c2_resume_example_counterexample :
    classify (str "Experienced backend engineer with 6 years building distributed payment systems in Java and Kubernetes...") ≠ Mode.resume ∧
    classify (str "Experienced backend engineer with 6 years building distributed payment systems in Java and Kubernetes...") = Mode.search := by
  decide

/-- C2 (amended): with no file attached, "Find Python experts" maps to
`search` (keyword search), "Joshua Hart" maps to `name_search`, the
resume-like example text maps to `search` as well (technical
vocabulary outranks any resume reading; the classifier never returns
`resume` for typed text), and "react" maps to `search`. -/
theorem c2_classifier_examples :
    classify (str "Find Python experts") = Mode.search ∧
    classify (str "Joshua Hart") = Mode.name_search ∧
    classify (str "Experienced backend engineer with 6 years building distributed payment systems in Java and Kubernetes...") = Mode.search ∧
    classify (str "react") = Mode.search := by
  decide

/-- C3 counterexample: the classifier is not invariant under
lower-casing: "Joshua Hart" classifies as `name_search` while its
lower-cased form "joshua hart" classifies as `search`. -/
theorem c3_case_counterexample :
    classify (str "Joshua Hart") = Mode.name_search ∧
    classify (lowerStr (str "Joshua Hart")) = Mode.search ∧
    classify (lowerStr (str "Joshua Hart")) ≠ classify (str "Joshua Hart") := by
  decide

/-- C3 (amended): the classifier is a deterministic pure function of
the text, and its trigger-phrase and technical-vocabulary rules are
case-insensitive; only the capitalization test of the name heuristic
is case-sensitive, so classifying the lower-cased form agrees with
classifying the text except that a text classified `name_search` may
have its lower-cased form classified `search`. -/
theorem c3_lowercase_near_invariant (t : JSStr) :
    classify (lowerStr t) = classify t ∨
      (classify t = Mode.name_search ∧ classify (lowerStr t) = Mode.search) := by
  by_cases h1 : isKeywordSearch (lowerStr t) = true
  · left
    simp [classify, lowerStr_lowerStr, h1]
  · rw [Bool.not_eq_true] at h1
    by_cases h2 : isTechnicalQuery (lowerStr t) = true
    · left
      simp [classify, lowerStr_lowerStr, h1, h2]
    · rw [Bool.not_eq_true] at h2
      by_cases h3 : nameHeuristics (lowerStr t) = true
      · have h4 := nameHeuristics_lower_imp t h3
        left
        simp [classify, lowerStr_lowerStr, h1, h2, h3, h4]
      · rw [Bool.not_eq_true] at h3
        by_cases h5 : nameHeuristics t = true
        · right
          constructor <;> simp [classify, lowerStr_lowerStr, h1, h2, h3, h5]
        · rw [Bool.not_eq_true] at h5
          left
          simp [classify, lowerStr_lowerStr, h1, h2, h3, h5]

/-- C4: the trigger-phrase rule fires first and yields `search` (the
keyword-search mode); when it does not fire, a bidirectional
containment match against the technical vocabulary also yields
`search`. -/
theorem c4_rule_precedence (t : JSStr) :
    (isKeywordSearch (lowerStr t) = true → classify t = Mode.search) ∧
    (isKeywordSearch (lowerStr t) = false → isTechnicalQuery (lowerStr t) = true →
      classify t = Mode.search) := by
  constructor
  · intro h
    simp [classify, h]
  · intro h1 h2
    simp [classify, h1, h2]

/-- C4 witness: the rule-precedence theorem applied at the trigger
phrase query "looking for testers" and the vocabulary query "react". -/
theorem c4_rule_precedence_witness :
    isKeywordSearch (lowerStr (str "looking for testers")) = true ∧
    classify (str "looking for testers") = Mode.search ∧
    isKeywordSearch (lowerStr (str "react")) = false ∧
    isTechnicalQuery (lowerStr (str "react")) = true ∧
    classify (str "react") = Mode.search :=
  ⟨by decide, (c4_rule_precedence (str "looking for testers")).1 (by decide),
    by decide, by decide,
    (c4_rule_precedence (str "react")).2 (by decide) (by decide)⟩

/-- C5 counterexample: the text "'abc" matches no trigger phrase and no
vocabulary entry and is classified `name_search`, although none of its
words starts with an uppercase letter: the capitalization test
`word[0] === word[0].toUpperCase()` also accepts a leading
apostrophe. -/
theorem c5_uppercase_counterexample :
    isKeywordSearch (lowerStr (str "'abc")) = false ∧
    isTechnicalQuery (lowerStr (str "'abc")) = false ∧
    classify (str "'abc") = Mode.name_search ∧
    (splitWs (trimStr (str "'abc"))).any startsWithUpper = false := by
  decide

/-- C5 (amended): for typed text matching no trigger phrase and no
vocabulary entry, the classifier returns `name_search` exactly when
the text is shorter than 50 characters, has one to three words,
consists only of letters, whitespace, apostrophes and hyphens, and
some word starts with a character fixed by upper-casing: an uppercase
letter, an apostrophe, or a hyphen. -/
theorem c5_name_heuristics_characterization (t : JSStr)
    (h1 : isKeywordSearch (lowerStr t) = false)
    (h2 : isTechnicalQuery (lowerStr t) = false) :
    classify t = Mode.name_search ↔
      (t.length < 50 ∧ 1 ≤ (splitWs (trimStr t)).length ∧
        (splitWs (trimStr t)).length ≤ 3 ∧ t ≠ [] ∧
        t.all nameCharCp = true ∧
        (splitWs (trimStr t)).any startsWithCapLike = true) := by
  have hcl : classify t = Mode.name_search ↔ nameHeuristics t = true := by
    by_cases h : nameHeuristics t = true <;> simp [classify, h1, h2, h]
  rw [hcl]
  simp only [nameHeuristics, hasCapitalizedWord, Bool.and_eq_true,
    decide_eq_true_eq, isNameLike, Bool.not_eq_true', List.isEmpty_eq_false,
    List.all_eq_true, List.any_eq_true]
  constructor
  · rintro ⟨⟨⟨hshort, hfew1, hfew2⟩, hne, hall⟩, w, hw, hcw⟩
    refine ⟨hshort, hfew1, hfew2, hne, hall, w, hw, ?_⟩
    cases w with
    | nil => simp at hcw
    | cons c rest =>
      simp only [beq_iff_eq] at hcw
      have hmem := (splitWs_subset (trimStr t) (c :: rest) hw c
        (List.mem_cons_self c rest))
      have hct : c ∈ t := mem_of_mem_trimStr hmem.1
      have hnc := hall c hct
      simp only [nameCharCp, isWsCp, Bool.or_eq_true, decide_eq_true_eq] at hnc
      have hnw := hmem.2
      simp only [isWsCp, decide_eq_false_iff_not] at hnw
      have hup : ¬(97 ≤ c ∧ c ≤ 122) := by
        intro hrange
        rw [toUpperCp, if_pos hrange] at hcw
        omega
      simp only [startsWithCapLike, decide_eq_true_eq]
      omega
  · rintro ⟨hshort, hfew1, hfew2, hne, hall, w, hw, hcw⟩
    refine ⟨⟨⟨hshort, hfew1, hfew2⟩, hne, hall⟩, w, hw, ?_⟩
    cases w with
    | nil => simp [startsWithCapLike] at hcw
    | cons c rest =>
      simp only [startsWithCapLike, decide_eq_true_eq] at hcw
      simp only [beq_iff_eq, toUpperCp]
      rw [if_neg (by omega)]

/-- C5 witness: the characterization applied at the concrete name
query "Joshua Hart". -/
theorem c5_name_heuristics_witness :
    isKeywordSearch (lowerStr (str "Joshua Hart")) = false ∧
    isTechnicalQuery (lowerStr (str "Joshua Hart")) = false ∧
    classify (str "Joshua Hart") = Mode.name_search :=
  ⟨by decide, by decide,
    (c5_name_heuristics_characterization (str "Joshua Hart") (by decide)
      (by decide)).mpr (by decide)⟩

/-- C6 counterexample: the recommend request built for the keyword
query "react" carries the mode literal "search", which is none of the
three values "resume", "keyword_search", "name_search" named by the
claim. -/
theorem c6_mode_literal_counterexample :
    (buildPayload (str "react") (classify (str "react"))).mode = "search" ∧
    (buildPayload (str "react") (classify (str "react"))).mode ≠ "resume" ∧
    (buildPayload (str "react") (classify (str "react"))).mode ≠ "keyword_search" ∧
    (buildPayload (str "react") (classify (str "react"))).mode ≠ "name_search" := by
  decide

/-- C6 (amended): every recommend request body has a mode field equal
to one of "resume", "search", "name_search" (the client literal for
keyword search is "search"); for the `search` and `name_search` modes
the `searchQuery` field carries the query text and `resumeText` is
absent, and for `resume` the `resumeText` field carries it and
`searchQuery` is absent. -/
theorem c6_payload_shape (text : JSStr) (mode : Mode) :
    ((buildPayload text mode).mode = "resume" ∨
      (buildPayload text mode).mode = "search" ∨
      (buildPayload text mode).mode = "name_search") ∧
    (buildPayload text mode).searchQuery =
      (if mode = Mode.search ∨ mode = Mode.name_search then some text
        else none) ∧
    (buildPayload text mode).resumeText =
      (if mode = Mode.resume then some text else none) := by
  cases mode <;> simp [buildPayload, modeWire]

/-- C7: merging a match-details response into the recommendations list
preserves the list length; the entry at any position keeps its id,
name, title, department, location, email, manager, experience years,
professional summary, skills, primary skills, secondary skills, tools,
projects, match score, summary and avatar; its `resumeMatch` and
`collaborationSuggestions` are replaced exactly when its id equals the
target id, and an entry whose id differs is entirely unchanged. -/
theorem c7_merge_details_frame (recs : List Employee) (targetId : String)
    (rm : ResumeMatch) (cs : List String) (i : Nat) (e : Employee)
    (he : recs[i]? = some e) :
    (mergeDetails recs targetId rm cs).length = recs.length ∧
    ∃ e', (mergeDetails recs targetId rm cs)[i]? = some e' ∧
      e'.id = e.id ∧ e'.name = e.name ∧ e'.title = e.title ∧
      e'.department = e.department ∧ e'.location = e.location ∧
      e'.email = e.email ∧ e'.manager = e.manager ∧
      e'.experienceYears = e.experienceYears ∧
      e'.professionalSummary = e.professionalSummary ∧
      e'.skills = e.skills ∧ e'.primarySkills = e.primarySkills ∧
      e'.secondarySkills = e.secondarySkills ∧ e'.tools = e.tools ∧
      e'.projects = e.projects ∧ e'.matchScore = e.matchScore ∧
      e'.summary = e.summary ∧ e'.avatarUrl = e.avatarUrl ∧
      (e.id = targetId → e'.resumeMatch = some rm ∧
        e'.collaborationSuggestions = cs) ∧
      (e.id ≠ targetId → e' = e) := by
  refine ⟨by simp [mergeDetails], ?_⟩
  by_cases hid : e.id = targetId
  · refine ⟨{ e with resumeMatch := some rm, collaborationSuggestions := cs },
      ?_, rfl, rfl, rfl, rfl, rfl, rfl, rfl, rfl, rfl, rfl, rfl, rfl, rfl,
      rfl, rfl, rfl, rfl, fun _ => ⟨rfl, rfl⟩, fun hn => absurd hid hn⟩
    simp [mergeDetails, List.getElem?_map, he, hid]
  · refine ⟨e, ?_, rfl, rfl, rfl, rfl, rfl, rfl, rfl, rfl, rfl, rfl, rfl,
      rfl, rfl, rfl, rfl, rfl, rfl, fun habs => absurd habs hid, fun _ => rfl⟩
    simp [mergeDetails, List.getElem?_map, he, hid]

/-- C7 witness: the frame theorem applied at a concrete two-element
recommendations list, merging details into the entry with id "a1". -/
theorem c7_merge_details_witness :
    (mergeDetails [empA, empB] "a1" rmDemo ["Pair on Go services"]).length =
      ([empA, empB] : List Employee).length ∧
    ∃ e', (mergeDetails [empA, empB] "a1" rmDemo ["Pair on Go services"])[0]? =
        some e' ∧
      e'.id = empA.id ∧ e'.name = empA.name ∧ e'.title = empA.title ∧
      e'.department = empA.department ∧ e'.location = empA.location ∧
      e'.email = empA.email ∧ e'.manager = empA.manager ∧
      e'.experienceYears = empA.experienceYears ∧
      e'.professionalSummary = empA.professionalSummary ∧
      e'.skills = empA.skills ∧ e'.primarySkills = empA.primarySkills ∧
      e'.secondarySkills = empA.secondarySkills ∧ e'.tools = empA.tools ∧
      e'.projects = empA.projects ∧ e'.matchScore = empA.matchScore ∧
      e'.summary = empA.summary ∧ e'.avatarUrl = empA.avatarUrl ∧
      (empA.id = "a1" → e'.resumeMatch = some rmDemo ∧
        e'.collaborationSuggestions = ["Pair on Go services"]) ∧
      (empA.id ≠ "a1" → e' = empA) :=
  c7_merge_details_frame [empA, empB] "a1" rmDemo ["Pair on Go services"] 0
    empA rfl

/-- C8: whenever a file is attached, `handleSubmit` resolves the mode
to `resume` regardless of the typed text; the classifier is applied to
the combined text only when no file is attached. -/
theorem c8_file_forces_resume (input fname ftext : JSStr) :
    handleSubmit input (some (fname, ftext)) =
      SubmitOutcome.accepted (combinedOf input (some (fname, ftext)))
        Mode.resume ∧
    (trimStr input ≠ [] →
      handleSubmit input none =
        SubmitOutcome.accepted (trimStr input) (classify (trimStr input))) := by
  constructor
  · simp [handleSubmit, resolveMode]
  · intro hne
    have h1 : (trimStr input).isEmpty = false := by simp [hne]
    simp [handleSubmit, resolveMode, combinedOf, h1]

/-- C8 witness: the theorem applied at the search-phrase text
"find Go experts" with an attached file, resolving to `resume`. -/
theorem c8_file_forces_resume_witness :
    trimStr (str "find Go experts") ≠ [] ∧
    handleSubmit (str "find Go experts") (some (str "cv.pdf", str "Resume body")) =
      SubmitOutcome.accepted
        (combinedOf (str "find Go experts") (some (str "cv.pdf", str "Resume body")))
        Mode.resume ∧
    handleSubmit (str "find Go experts") none =
      SubmitOutcome.accepted (trimStr (str "find Go experts"))
        (classify (trimStr (str "find Go experts"))) :=
  ⟨by decide,
    (c8_file_forces_resume (str "find Go experts") (str "cv.pdf")
      (str "Resume body")).1,
    (c8_file_forces_resume (str "find Go experts") (str "cv.pdf")
      (str "Resume body")).2 (by decide)⟩

/-- C9: opening a candidate detail view issues a match-details request
exactly when the stored query text is nonempty and the candidate
either lacks a `resumeMatch` or has an empty
`collaborationSuggestions` list; in particular, a candidate already
carrying both never triggers a second request. -/
theorem c9_lazy_fetch_guard (q : JSStr) (emp : Employee) :
    (handleReadMoreRequest q emp).isSome = true ↔
      q ≠ [] ∧ (emp.resumeMatch = none ∨ emp.collaborationSuggestions = []) := by
  rw [handleReadMoreRequest]
  by_cases h : shouldFetchDetails q emp = true
  · rw [if_pos h]
    simpa using (shouldFetchDetails_iff q emp).mp h
  · rw [if_neg h]
    simp only [Option.isSome_none, Bool.false_eq_true, false_iff]
    exact fun hc => h ((shouldFetchDetails_iff q emp).mpr hc)

/-- C10: submitting whitespace-only text with no attached file takes
the early-return error path: `handleSubmit` produces the error message
"Please enter text or upload a file." and never reaches
`onTextExtracted`, so no recommend request is built. -/
theorem c10_blank_submit_rejected (input : JSStr)
    (h : ∀ c ∈ input, isWsCp c = true) :
    handleSubmit input none =
      SubmitOutcome.rejected "Please enter text or upload a file." := by
  have h1 : trimStr input = [] := trimStr_eq_nil_of_all_ws input h
  simp [handleSubmit, h1]

/-- C10 witness: the theorem applied at a three-space input. -/
theorem c10_blank_submit_witness :
    (∀ c ∈ str "   ", isWsCp c = true) ∧
    handleSubmit (str "   ") none =
      SubmitOutcome.rejected "Please enter text or upload a file." :=
  ⟨by decide, c10_blank_submit_rejected (str "   ") (by decide)⟩

end CollabConnect
